import Mathlib

/- Verification development for the SmartKnowledgeAssistant backend.

   The Python sources are embedded shallowly:
   - Python dicts become insertion-ordered association lists.
   - Timestamps become a logical clock (a natural number bumped per call).
   - Floating-point scores and distances become rationals.
   - The external embedding provider becomes a function oracle together
     with a per-batch failure predicate.
   - SQLite / SQLAlchemy state becomes an explicit record of rows.
-/

namespace SmartKA


/- ------------------------------------------------------------------ -/
/- Association-list model of Python dicts (insertion ordered).        -/
/- ------------------------------------------------------------------ -/

/-- Lookup `d[k]`, as `dict.get(k)`. -/
def dictFind? {α β : Type} [BEq α] (k : α) (d : List (α × β)) : Option β :=
  match d.find? (fun p => p.1 == k) with
  | some p => some p.2
  | none => none

/-- Assignment `d[k] = v`: replaces in place when the key exists, appends otherwise. -/
def dictSet {α β : Type} [BEq α] (k : α) (v : β) : List (α × β) → List (α × β)
  | [] => [(k, v)]
  | p :: ps => if p.1 == k then (k, v) :: ps else p :: dictSet k v ps

/-- Deletion `del d[k]` / `d.pop(k, None)`: removes the first entry with that key. -/
def dictErase {α β : Type} [BEq α] (k : α) : List (α × β) → List (α × β)
  | [] => []
  | p :: ps => if p.1 == k then ps else p :: dictErase k ps

/- ------------------------------------------------------------------ -/
/- String helpers mirroring Python `str.lower` and `in` / `contains`. -/
/- ------------------------------------------------------------------ -/

/-- Whether `needle` is a leading segment of `hay` (on character lists). -/
def charsMatchAt : List Char → List Char → Bool
  | [], _ => true
  | _ :: _, [] => false
  | a :: as, b :: bs => a == b && charsMatchAt as bs

/-- Whether `needle` occurs contiguously inside `hay`, as Python `needle in hay`. -/
def charsContains (needle : List Char) : List Char → Bool
  | [] => needle.isEmpty
  | b :: bs => charsMatchAt needle (b :: bs) || charsContains needle bs

/-- Python `needle in hay` on strings. -/
def strContains (hay needle : String) : Bool :=
  charsContains needle.data hay.data

/-- Python `s.lower()` (ASCII-adequate, matching the corpus). -/
def lowerStr (s : String) : String :=
  String.mk (s.data.map Char.toLower)

/-- The characters Python `str.strip()` removes by default. -/
def isSpaceChar (c : Char) : Bool :=
  c == ' ' || c == '\t' || c == '\n' || c == '\r' || c == '\x0b' || c == '\x0c'

/-- Python `s.strip()`: whitespace removed from both ends. -/
def stripStr (s : String) : String :=
  String.mk (((s.data.dropWhile isSpaceChar).reverse.dropWhile isSpaceChar).reverse)

/- ------------------------------------------------------------------ -/
/- chat_utils.build_context_from_results                              -/
/- ------------------------------------------------------------------ -/

/-- One retrieved row handed to context assembly: its visible fields as an
ordered field list plus the relevance score stored under the `_score` key
(absent on rows that never passed through a scorer). -/
structure RetrievedDoc where
  fields : List (String × String)
  score : Option ℚ
  deriving Repr, DecidableEq

/-- Python `result.get(k)` over the visible fields. -/
def fieldGet? (r : RetrievedDoc) (k : String) : Option String :=
  dictFind? k r.fields

/-- Python `result.get("_score", 0)`. -/
def scoreOrZero (r : RetrievedDoc) : ℚ :=
  r.score.getD 0

/-- The note returned when the result list is empty (source line 14 of chat_utils.py). -/
def noResultsNote : String :=
  "\n\nNote: No relevant information was found in our knowledge base. Please answer based on your general knowledge."

/-- The note returned when no result scores above 0.7 (source line 60 of chat_utils.py). -/
def lowRelevanceNote : String :=
  "\n\nNote: The information provided may not directly answer the question. Please use your general knowledge where appropriate, but mention when you do so."

/-- Stable insertion step for Python `sorted(..., reverse=True)` by score. -/
def insertDescBy {α : Type} (key : α → ℚ) (x : α) : List α → List α
  | [] => [x]
  | y :: ys => if key y ≤ key x then x :: y :: ys else y :: insertDescBy key x ys

/-- Python `sorted(results, key=lambda x: x.get("_score", 0), reverse=True)` (stable). -/
def sortDescBy {α : Type} (key : α → ℚ) : List α → List α
  | [] => []
  | x :: xs => insertDescBy key x (sortDescBy key xs)

/-- Fields skipped when rendering an arbitrary (non-FAQ) document. -/
def skipFields : List String :=
  ["_score", "_id", "_source", "_document_id", "_source_id"]

/-- One rendered context section for result number `i` (0-based, as `enumerate`). -/
def sectionFor (i : Nat) (r : RetrievedDoc) : String :=
  let category := (fieldGet? r "Category").getD "General"
  let faqId := (fieldGet? r "ID").getD (toString (i + 1))
  let header := "--- " ++ category ++ " FAQ #" ++ faqId ++ " ---\n"
  match fieldGet? r "Question", fieldGet? r "Answer" with
  | some q, some a =>
      let base := header ++ "Question: " ++ q ++ "\n" ++ "Answer: " ++ a ++ "\n"
      match fieldGet? r "Category" with
      | some c => if c ≠ "" then base ++ "Category: " ++ c ++ "\n" else base
      | none => base
  | _, _ =>
      header ++
        String.join ((r.fields.filter (fun p => ¬ p.1 ∈ skipFields)).map
          (fun p => p.1 ++ ": " ++ p.2 ++ "\n"))

/-- Shallow embedding of `chat_utils.build_context_from_results`: returns the
AI context string and the scarcity note. -/
def build_context_from_results (results : List RetrievedDoc) : String × String :=
  match results with
  | [] => ("", noResultsNote)
  | r0 :: _ =>
      let sorted := if r0.score.isSome then sortDescBy scoreOrZero results else results
      let parts := sorted.enum.map (fun p => sectionFor p.1 p.2)
      let fullContext := String.intercalate "\n" parts
      let hasRelevantInfo := sorted.any (fun r => decide ((7 : ℚ)/10 < scoreOrZero r))
      let scarcityNote := if hasRelevantInfo then "" else lowRelevanceNote
      (fullContext, scarcityNote)

/- ------------------------------------------------------------------ -/
/- vector_search: similarity transform                                -/
/- ------------------------------------------------------------------ -/

/-- The score transform `1 / (1 + distance)` applied to each k-NN distance
(vector_search.py line 173). -/
def similarity (d : ℚ) : ℚ :=
  1 / (1 + d)

/- ------------------------------------------------------------------ -/
/- vector_search.VectorSearchEngine                                   -/
/- ------------------------------------------------------------------ -/

/-- The zero vector substituted when an embedding call fails
(vector_search.py lines 45 and 58); the model dimension is 1536. -/
def zeroVec : List ℚ :=
  List.replicate 1536 0

/-- Python `text.replace("\n", " ")`. -/
def cleanText (s : String) : String :=
  s.map (fun c => if c = '\n' then ' ' else c)

/-- The external OpenAI embedding collaborator: one embedding per input text
per the API contract, plus failure predicates for the two call shapes. -/
structure EmbedProvider where
  embedText : String → List ℚ
  batchFails : List String → Bool
  singleFails : String → Bool

/-- Shallow embedding of `VectorSearchEngine._get_embedding`: a failed call
degrades to the zero vector. -/
def get_embedding (p : EmbedProvider) (text : String) : List ℚ :=
  if p.singleFails text then zeroVec else p.embedText (cleanText text)

/-- Shallow embedding of `VectorSearchEngine._get_embeddings_batch`: a failed
batched call degrades to one zero vector per input text. -/
def get_embeddings_batch (p : EmbedProvider) (texts : List String) : List (List ℚ) :=
  if p.batchFails texts then List.replicate texts.length zeroVec
  else texts.map (fun t => p.embedText (cleanText t))

/-- The batching loop of `build_index_from_dataframe` (batch size 100). -/
def processBatches (f : List String → List (List ℚ)) (texts : List String) :
    List (List ℚ) :=
  if hempty : texts.isEmpty then []
  else f (texts.take 100) ++ processBatches f (texts.drop 100)
termination_by texts.length
decreasing_by
  simp only [List.length_drop]
  have hne : texts ≠ [] := by
    intro hgoal
    exact hempty (by simp [hgoal])
  have : 0 < texts.length := List.length_pos.mpr hne
  omega

/-- A tabular source row: column name to stringified cell, in column order. -/
def SourceRow : Type :=
  List (String × String)

/-- Python `" ".join([str(row[col]) for col in text_columns if col in row])`. -/
def combineText (textCols : List String) (row : SourceRow) : String :=
  String.intercalate " " (textCols.filterMap (fun c => dictFind? c row))

/-- The stored document for row ordinal `i`: the row restricted to the
configured columns plus the two internal tags. -/
def docFor (sourceId : String) (keepCols : List String) (i : Nat) (row : SourceRow) :
    List (String × String) :=
  row.filter (fun q => q.1 ∈ keepCols) ++
    [("_source_id", sourceId), ("_document_id", toString i)]

/-- One built source index: the flat vector list and the parallel document list. -/
structure IndexData where
  vecs : List (List ℚ)
  docs : List (List (String × String))
  deriving Repr, DecidableEq

/-- What deserializing the persisted pair of files for a source can yield:
missing files, a raising deserialization, or the stored data. -/
inductive DiskEntry where
  | absent
  | corrupt
  | ok (d : IndexData) (ts : Nat)

/-- In-memory engine state: resident indexes, build timestamps, the persisted
files, and a logical clock standing in for `time.time()`. -/
structure VSState where
  indexes : List (String × IndexData)
  lastUpdated : List (String × Nat)
  disk : String → DiskEntry
  clock : Nat

/-- Shallow embedding of `VectorSearchEngine._load_index`: absent files or a
raising deserialization report failure without touching resident state. -/
def load_index (s : VSState) (sourceId : String) : Bool × VSState :=
  match s.disk sourceId with
  | .absent => (false, s)
  | .corrupt => (false, s)
  | .ok d ts =>
      (true, { s with indexes := dictSet sourceId d s.indexes,
                      lastUpdated := dictSet sourceId ts s.lastUpdated })

/-- The index data produced by `build_index_from_dataframe` before storing. -/
def buildIndexData (p : EmbedProvider) (rows : List SourceRow) (sourceId : String)
    (textCols metaCols : List String) : IndexData :=
  let texts := rows.map (combineText textCols)
  let documents := rows.enum.map
    (fun q => docFor sourceId (textCols ++ metaCols) q.1 q.2)
  let embeddings := processBatches (get_embeddings_batch p) texts
  ⟨embeddings, documents⟩

/-- Shallow embedding of `VectorSearchEngine.build_index_from_dataframe`:
store the built index and documents, record the build time, persist to disk. -/
def build_index_from_dataframe (p : EmbedProvider) (s : VSState)
    (rows : List SourceRow) (sourceId : String) (textCols metaCols : List String) :
    VSState :=
  let d := buildIndexData p rows sourceId textCols metaCols
  { indexes := dictSet sourceId d s.indexes,
    lastUpdated := dictSet sourceId s.clock s.lastUpdated,
    disk := fun k => if k = sourceId then DiskEntry.ok d s.clock else s.disk k,
    clock := s.clock + 1 }

/-- Squared L2 distance, as FAISS `IndexFlatL2` reports it. -/
def l2sq (u v : List ℚ) : ℚ :=
  ((u.zip v).map (fun q => (q.1 - q.2) ^ 2)).sum

/-- Stable ascending insertion by key (used for the k-NN distance ranking). -/
def insertAscBy {α : Type} (key : α → ℚ) (x : α) : List α → List α
  | [] => [x]
  | y :: ys => if key x < key y then x :: y :: ys else y :: insertAscBy key x ys

/-- Stable ascending sort by key: FAISS returns hits by ascending distance,
ties by ordinal. -/
def sortAscBy {α : Type} (key : α → ℚ) : List α → List α
  | [] => []
  | x :: xs => insertAscBy key x (sortAscBy key xs)

/-- Python `doc.pop("_source_id", None); doc.pop("_document_id", None)`. -/
def stripInternal (doc : List (String × String)) : List (String × String) :=
  dictErase "_document_id" (dictErase "_source_id" doc)

/-- Shallow embedding of `VectorSearchEngine.search`: load the index from disk
if not resident (empty result if unavailable), embed the query, rank stored
vectors by ascending squared L2 distance, take `top_k`, attach `1/(1+d)` as
the score to a copy of each stored row with internal fields stripped. -/
def vs_search (p : EmbedProvider) (s : VSState) (query : String)
    (sourceId : String) (top_k : Nat) : List RetrievedDoc × VSState :=
  let (resident, s') :=
    match dictFind? sourceId s.indexes with
    | some _ => (true, s)
    | none => load_index s sourceId
  if resident then
    match dictFind? sourceId s'.indexes with
    | none => ([], s')
    | some idx =>
        let qe := get_embedding p query
        let ranked := sortAscBy (fun q => q.1)
          (idx.vecs.enum.map (fun q => (l2sq qe q.2, q.1)))
        let top := ranked.take top_k
        let results := top.filterMap (fun q =>
          match idx.docs.get? q.2 with
          | none => none
          | some doc => some ⟨stripInternal doc, some (similarity q.1)⟩)
        (results, s')
  else ([], s')

/-- A trivial embedding provider used to instantiate witnesses. -/
def probeProvider : EmbedProvider :=
  ⟨fun _ => zeroVec, fun _ => false, fun _ => false⟩

/-- A fresh engine whose disk holds no persisted index. -/
def emptyEngineState : VSState :=
  ⟨[], [], fun _ => DiskEntry.absent, 0⟩

/- ------------------------------------------------------------------ -/
/- data_manager.DataManager                                           -/
/- ------------------------------------------------------------------ -/

/-- One row of the FAQ table, with the three required columns. -/
structure FaqRow where
  category : String
  question : String
  answer : String
  deriving Repr, DecidableEq

/-- The record `to_dict("records")` produces for one FAQ row, in the CSV
column order Category / Question / Answer. -/
def faqRecord (r : FaqRow) : List (String × String) :=
  [("Category", r.category), ("Question", r.question), ("Answer", r.answer)]

/-- Shallow embedding of `DataManager._fallback_text_search`: lower-case the
stripped query and keep rows where it occurs inside the lowered question,
answer, or category, then cap at `limit` and tag each hit with the fixed
score 0.5. The queries in this development carry no regex metacharacters, so
pandas `str.contains` coincides with substring containment. -/
def fallback_text_search (faqs : Option (List FaqRow)) (query : String)
    (limit : Nat) : List RetrievedDoc :=
  match faqs with
  | none => []
  | some rows =>
      if rows.isEmpty then []
      else
        let q := lowerStr (stripStr query)
        if q = "" then []
        else
          let matched := rows.filter (fun r =>
            strContains (lowerStr r.question) q ||
            strContains (lowerStr r.answer) q ||
            strContains (lowerStr r.category) q)
          (matched.take limit).map (fun r => ⟨faqRecord r, some (1/2)⟩)

/-- Shallow embedding of `DataManager.search_faqs`, with the vector-search call
abstracted into its result list: a raising or result-less vector search falls
back to text search, a non-empty vector result is returned as is. The index
freshness side effects of `_ensure_faq_index` are not observable in the
returned value and are omitted. -/
def search_faqs (vectorResults : List RetrievedDoc) (faqs : Option (List FaqRow))
    (query : String) (limit : Nat) : List RetrievedDoc :=
  match vectorResults with
  | [] => fallback_text_search faqs query limit
  | r :: rs => r :: rs

/-- The single FAQ row of the C5 scenario. -/
def billingRow : FaqRow :=
  ⟨"Billing", "How do refunds work?", "Refunds are processed within 5 days."⟩

/- ------------------------------------------------------------------ -/
/- Durable relational store (sessions and messages tables)            -/
/- ------------------------------------------------------------------ -/

/-- One row of the `chat_sessions` table. -/
structure DBSession where
  id : Int
  user_id : Int
  title : String
  is_archived : Bool
  is_pinned : Bool
  created_at : Nat
  updated_at : Nat
  deriving Repr, DecidableEq

/-- One row of the `chat_messages` table; the JSON metadata round-trips, so it
is kept structured. -/
structure Msg where
  id : Int
  chat_id : Int
  role : String
  content : String
  metadata : List (String × String)
  created_at : Nat
  deriving Repr, DecidableEq

/-- The relational store: table contents plus the AUTOINCREMENT counters,
which start at 1 and only grow. -/
structure DB where
  sessions : List DBSession
  messages : List Msg
  nextSessionId : Int
  nextMessageId : Int
  deriving Repr, DecidableEq

/-- A store with empty tables. -/
def emptyDB : DB :=
  ⟨[], [], 1, 1⟩

/- ------------------------------------------------------------------ -/
/- services.chat_manager.ChatManager                                  -/
/- ------------------------------------------------------------------ -/

/-- One in-memory incognito chat record of `ChatManager`. -/
structure CMChat where
  user_id : Int
  title : String
  created_at : Nat
  updated_at : Nat
  deriving Repr, DecidableEq

/-- One in-memory incognito message record of `ChatManager` (no chat id field
in the source dict). -/
structure CMMsg where
  id : Int
  role : String
  content : String
  metadata : Option (List (String × String))
  created_at : Nat
  deriving Repr, DecidableEq

/-- `ChatManager` state: the two incognito dicts, the SQLite store, and a
logical clock standing in for the wall timestamps. -/
structure CMState where
  incognito_chats : List (Int × CMChat)
  incognito_messages : List (Int × List CMMsg)
  db : DB
  clock : Nat
  deriving Repr, DecidableEq

/-- A freshly constructed `ChatManager` over an empty store. -/
def cmInit : CMState :=
  ⟨[], [], emptyDB, 0⟩

/-- Python truthiness of an optional string (`not title` is true for both
`None` and `""`). -/
def strTruthy (o : Option String) : Bool :=
  match o with
  | some t => !(t == "")
  | none => false

/-- Python `title or default`. -/
def pyOrStr (o : Option String) (dflt : String) : String :=
  match o with
  | some t => if t == "" then dflt else t
  | none => dflt

/-- Python `s[:n]` on strings. -/
def takeStr (n : Nat) (s : String) : String :=
  String.mk (s.data.take n)

/-- Shallow embedding of `ChatManager.create_chat`. Incognito ids are computed
from the current dict size as `-len(incognito_chats) - 1`; durable sessions
get the next AUTOINCREMENT id. Returns the new chat id. -/
def cm_create_chat (s : CMState) (user_id : Int) (first_message title : Option String)
    (is_incognito : Bool) : Int × CMState :=
  if is_incognito then
    let chat_id : Int := -(s.incognito_chats.length : Int) - 1
    let now := s.clock
    (chat_id,
      { s with
        incognito_chats :=
          dictSet chat_id ⟨user_id, pyOrStr title "Incognito Chat", now, now⟩
            s.incognito_chats,
        incognito_messages := dictSet chat_id [] s.incognito_messages,
        clock := s.clock + 1 })
  else
    let title1 :=
      if !(strTruthy title) && strTruthy first_message then
        match first_message with
        | some fm =>
            some (takeStr 50 fm ++ (if 50 < fm.data.length then "..." else ""))
        | none => title
      else title
    let sid := s.db.nextSessionId
    let row : DBSession :=
      ⟨sid, user_id, pyOrStr title1 "New Chat", false, false, s.clock, s.clock⟩
    (sid,
      { s with
        db := { s.db with
                sessions := s.db.sessions ++ [row],
                nextSessionId := sid + 1 },
        clock := s.clock + 1 })

/-- Shallow embedding of `ChatManager.update_chat`. For a negative id the
update succeeds exactly when the chat exists, belongs to the caller and a
title was supplied; for a durable id it runs a guarded SQL UPDATE and reports
whether any row was touched. -/
def cm_update_chat (s : CMState) (chat_id user_id : Int) (title : Option String)
    (is_archived : Option Bool) : Bool × CMState :=
  if chat_id < 0 then
    match dictFind? chat_id s.incognito_chats, title with
    | some chat, some t =>
        if chat.user_id == user_id then
          (true,
            { s with
              incognito_chats :=
                dictSet chat_id { chat with title := t, updated_at := s.clock }
                  s.incognito_chats,
              clock := s.clock + 1 })
        else (false, s)
    | some _, none => (false, s)
    | none, _ => (false, s)
  else
    if title.isNone && is_archived.isNone then (false, s)
    else
      let touched := s.db.sessions.filter
        (fun t => t.id == chat_id && t.user_id == user_id)
      let sessions1 := s.db.sessions.map (fun t =>
        if t.id == chat_id && t.user_id == user_id then
          { t with
            title := title.getD t.title,
            is_archived := is_archived.getD t.is_archived,
            updated_at := s.clock }
        else t)
      (!touched.isEmpty,
        { s with
          db := { s.db with sessions := sessions1 },
          clock := s.clock + 1 })

/-- Shallow embedding of `ChatManager.delete_chat`. The durable branch first
deletes the chat's messages unconditionally, then deletes the session row
guarded by ownership, and reports whether a session row was deleted. -/
def cm_delete_chat (s : CMState) (chat_id user_id : Int) : Bool × CMState :=
  if chat_id < 0 then
    match dictFind? chat_id s.incognito_chats with
    | some chat =>
        if chat.user_id == user_id then
          (true,
            { s with
              incognito_chats := dictErase chat_id s.incognito_chats,
              incognito_messages := dictErase chat_id s.incognito_messages })
        else (false, s)
    | none => (false, s)
  else
    let messages1 := s.db.messages.filter (fun m => !(m.chat_id == chat_id))
    let removed := s.db.sessions.filter
      (fun t => t.id == chat_id && t.user_id == user_id)
    let sessions1 := s.db.sessions.filter
      (fun t => !(t.id == chat_id && t.user_id == user_id))
    (!removed.isEmpty,
      { s with db := { s.db with messages := messages1, sessions := sessions1 } })

/- ------------------------------------------------------------------ -/
/- services.chat_service.ChatService                                  -/
/- ------------------------------------------------------------------ -/

/-- One in-memory incognito chat record of `ChatService` (the source dict also
stores the id and the constant incognito flag). -/
structure CSChat where
  id : Int
  user_id : Int
  title : String
  created_at : Nat
  updated_at : Nat
  deriving Repr, DecidableEq

/-- The `ChatSession` shape `ChatService` returns. -/
structure ChatSessionOut where
  id : Int
  user_id : Int
  title : String
  created_at : Nat
  updated_at : Nat
  is_archived : Bool
  is_pinned : Bool
  is_incognito : Bool
  message_count : Nat
  last_message : Option String
  deriving Repr, DecidableEq

/-- `ChatService` state: the two incognito dicts, the decrementing incognito
id counter (starting at -1), the durable store, and a logical clock. -/
structure CSState where
  incognito_chats : List (Int × CSChat)
  incognito_messages : List (Int × List Msg)
  incognito_id : Int
  db : DB
  clock : Nat
  deriving Repr, DecidableEq

/-- A freshly constructed `ChatService` over an empty store. -/
def csInit : CSState :=
  ⟨[], [], -1, emptyDB, 0⟩

/-- Shallow embedding of `ChatService._new_incognito_id`: hand out the counter
and decrement it. -/
def cs_new_incognito_id (s : CSState) : Int × CSState :=
  (s.incognito_id, { s with incognito_id := s.incognito_id - 1 })

/-- Modelled from the spec: the durable store's `create_chat_session`, whose
src binding is absent (the service's `db_manager` collaborator is not wired
in src). The durable store assigns the next strictly positive id. -/
def db_create_chat_session (db : DB) (user_id : Int) (title : String) (now : Nat) :
    ChatSessionOut × DB :=
  let sid := db.nextSessionId
  let row : DBSession := ⟨sid, user_id, title, false, false, now, now⟩
  (⟨sid, user_id, title, now, now, false, false, false, 0, none⟩,
    { db with sessions := db.sessions ++ [row], nextSessionId := sid + 1 })

/-- Shallow embedding of `ChatService.create_chat_session`. -/
def cs_create_chat_session (s : CSState) (user_id : Int) (title : Option String)
    (is_incognito : Bool) : Option ChatSessionOut × CSState :=
  let title1 := if strTruthy title then (title.getD "") else "Chat @" ++ toString s.clock
  if is_incognito then
    let (cid, s1) := cs_new_incognito_id s
    let now := s1.clock
    (some ⟨cid, user_id, title1, now, now, false, false, true, 0, none⟩,
      { s1 with
        incognito_chats :=
          dictSet cid ⟨cid, user_id, title1, now, now⟩ s1.incognito_chats,
        incognito_messages := dictSet cid [] s1.incognito_messages,
        clock := s1.clock + 1 })
  else
    let (sess, db1) := db_create_chat_session s.db user_id title1 s.clock
    (some sess, { s with db := db1, clock := s.clock + 1 })

/-- Modelled from the spec: the durable store's `update_chat_session`, whose
src binding is absent. Row-level update by id, returning the updated session
or nothing when the id is unknown. -/
def db_update_chat_session (db : DB) (chat_id : Int) (title : Option String)
    (is_archived is_pinned : Option Bool) (now : Nat) : Option ChatSessionOut × DB :=
  match db.sessions.find? (fun t => t.id == chat_id) with
  | none => (none, db)
  | some t =>
      let updated : DBSession :=
        { t with
          title := title.getD t.title,
          is_archived := is_archived.getD t.is_archived,
          is_pinned := is_pinned.getD t.is_pinned,
          updated_at := now }
      (some ⟨updated.id, updated.user_id, updated.title, updated.created_at,
          updated.updated_at, updated.is_archived, updated.is_pinned, false, 0, none⟩,
        { db with sessions := db.sessions.map (fun u => if u.id == chat_id then
            { u with
              title := title.getD u.title,
              is_archived := is_archived.getD u.is_archived,
              is_pinned := is_pinned.getD u.is_pinned,
              updated_at := now }
          else u) })

/-- Shallow embedding of `ChatService.update_chat`: an incognito (negative) id
is rejected outright with no state change; a durable id delegates to the
store's row update. -/
def cs_update_chat (s : CSState) (chat_id : Int) (title : Option String)
    (is_archived is_pinned is_incognito : Option Bool) :
    Option ChatSessionOut × CSState :=
  if chat_id < 0 then (none, s)
  else
    let (out, db1) := db_update_chat_session s.db chat_id title is_archived
      is_pinned s.clock
    (out, { s with db := db1, clock := s.clock + 1 })

/-- Modelled from the spec: the durable store's `delete_chat_session`, whose
src binding is absent. Cascade-deletes the session's messages with the
session row and reports whether the session existed. -/
def db_delete_chat_session (db : DB) (chat_id : Int) : Bool × DB :=
  let existed := db.sessions.any (fun t => t.id == chat_id)
  (existed,
    { db with
      sessions := db.sessions.filter (fun t => !(t.id == chat_id)),
      messages := db.messages.filter (fun m => !(m.chat_id == chat_id)) })

/-- Shallow embedding of `ChatService.delete_chat`: an incognito id is popped
from both in-memory dicts (reported as success even when absent); a durable
id delegates to the store's cascade delete. -/
def cs_delete_chat (s : CSState) (chat_id : Int) : Bool × CSState :=
  if chat_id < 0 then
    (true,
      { s with
        incognito_chats := dictErase chat_id s.incognito_chats,
        incognito_messages := dictErase chat_id s.incognito_messages })
  else
    let (ok, db1) := db_delete_chat_session s.db chat_id
    (ok, { s with db := db1 })

/-- Shallow embedding of `ChatService.clear_incognito_chats`: removes every
incognito chat and message list belonging to the user, returns the count. -/
def cs_clear_incognito_chats (s : CSState) (user_id : Int) : Nat × CSState :=
  let toDelete := (s.incognito_chats.filter (fun p => p.2.user_id == user_id)).map
    (fun p => p.1)
  (toDelete.length,
    { s with
      incognito_chats := s.incognito_chats.filter
        (fun p => !(p.2.user_id == user_id)),
      incognito_messages := toDelete.foldl (fun acc cid => dictErase cid acc)
        s.incognito_messages })

/-- Modelled from the spec: the durable store's `chat_belongs_to_user`, whose
src binding is absent. Ownership is a boolean check of the session row;
a missing row and a row with a different owner are both reported as `false`
(ownership failures surface as not-found). -/
def db_chat_belongs_to_user (db : DB) (chat_id user_id : Int) : Bool :=
  db.sessions.any (fun t => t.id == chat_id && t.user_id == user_id)

/-- Shallow embedding of `ChatService.verify_chat_owner`. -/
def cs_verify_chat_owner (s : CSState) (chat_id user_id : Int) : Bool :=
  if chat_id < 0 then
    match dictFind? chat_id s.incognito_chats with
    | some ch => ch.user_id == user_id
    | none => false
  else db_chat_belongs_to_user s.db chat_id user_id

/-- Shallow embedding of the durable store's `add_message_to_chat`
(database.py lines 353 to 384): insert the row with the next AUTOINCREMENT
id, bump the session's `updated_at`, return the message. -/
def db_add_message_to_chat (db : DB) (chat_id : Int) (role content : String)
    (metadata : List (String × String)) (now : Nat) : Msg × DB :=
  let m : Msg := ⟨db.nextMessageId, chat_id, role, content, metadata, now⟩
  (m,
    { db with
      messages := db.messages ++ [m],
      nextMessageId := db.nextMessageId + 1,
      sessions := db.sessions.map (fun t =>
        if t.id == chat_id then { t with updated_at := now } else t) })

/-- Shallow embedding of `ChatService.add_message`: an incognito chat appends
to the in-memory list with the session-local id `-len(messages) - 1` and bumps
the chat's timestamp; a durable chat delegates to the store. A missing
incognito chat yields no message. -/
def cs_add_message (s : CSState) (chat_id : Int) (role content : String)
    (metadata : List (String × String)) : Option Msg × CSState :=
  if chat_id < 0 then
    match dictFind? chat_id s.incognito_messages with
    | none => (none, s)
    | some msgs =>
        let mid : Int := -(msgs.length : Int) - 1
        let created := s.clock
        let m : Msg := ⟨mid, chat_id, role, content, metadata, created⟩
        let chats1 :=
          match dictFind? chat_id s.incognito_chats with
          | some ch => dictSet chat_id { ch with updated_at := created }
              s.incognito_chats
          | none => s.incognito_chats
        (some m,
          { s with
            incognito_messages := dictSet chat_id (msgs ++ [m])
              s.incognito_messages,
            incognito_chats := chats1,
            clock := s.clock + 1 })
  else
    let (m, db1) := db_add_message_to_chat s.db chat_id role content metadata s.clock
    (some m, { s with db := db1, clock := s.clock + 1 })

/-- Modelled from the spec: the durable store's message listing as the service
calls it, `get_chat_messages(chat_id, limit, offset)`; the src store has no
offset parameter. Session messages in insertion (= ascending id) order,
paged by offset and limit. -/
def db_get_chat_messages (db : DB) (chat_id : Int) (limit offset : Nat) :
    List Msg :=
  (((db.messages.filter (fun m => m.chat_id == chat_id)).drop offset).take limit)

/-- Python `limit or 100` on the optional limit. -/
def pyOrLimit (limit : Option Nat) (dflt : Nat) : Nat :=
  match limit with
  | some l => if l == 0 then dflt else l
  | none => dflt

/-- Shallow embedding of `ChatService.get_chat_messages`: the incognito list
sliced by offset and truthy limit, or the durable store's page with the
default cap of 100. -/
def cs_get_chat_messages (s : CSState) (chat_id : Int) (limit : Option Nat)
    (offset : Nat) : List Msg :=
  if chat_id < 0 then
    let msgs := (dictFind? chat_id s.incognito_messages).getD []
    let m1 := if offset == 0 then msgs else msgs.drop offset
    match limit with
    | some l => if l == 0 then m1 else m1.take l
    | none => m1
  else db_get_chat_messages s.db chat_id (pyOrLimit limit 100) offset

/- ------------------------------------------------------------------ -/
/- C1: updates on ephemeral sessions                                  -/
/- ------------------------------------------------------------------ -/

/-- A `ChatManager` holding three incognito chats of user 7, with ids -1, -2
and -3. -/
def cmDemo : CMState :=
  (cm_create_chat
    (cm_create_chat
      (cm_create_chat cmInit 7 none none true).2 7 none none true).2
    7 none none true).2

/- ------------------------------------------------------------------ -/
/- C2: ephemeral id allocation                                        -/
/- ------------------------------------------------------------------ -/

/-- The ephemeral-session operations the non-reuse property ranges over. -/
inductive EphOp where
  | create (uid : Int)
  | delete (cid uid : Int)
  | clear (uid : Int)
  deriving Repr, DecidableEq

/-- One `ChatService` operation together with the ephemeral ids it allocates. -/
def csStep (s : CSState) (op : EphOp) : CSState × List Int :=
  match op with
  | .create uid =>
      let r := cs_create_chat_session s uid none true
      (r.2, match r.1 with
            | some sess => [sess.id]
            | none => [])
  | .delete cid _ => ((cs_delete_chat s cid).2, [])
  | .clear uid => ((cs_clear_incognito_chats s uid).2, [])

/-- Fold step accumulating the allocation trace. -/
def csRunStep (acc : CSState × List Int) (op : EphOp) : CSState × List Int :=
  ((csStep acc.1 op).1, acc.2 ++ (csStep acc.1 op).2)

/-- Run an operation sequence from a fresh `ChatService`, collecting every
ephemeral id allocated along the way. -/
def csRun (ops : List EphOp) : CSState × List Int :=
  ops.foldl csRunStep (csInit, [])

/-- The allocation invariant: the counter is negative and strictly below every
id handed out so far. -/
def csAllocInv (p : CSState × List Int) : Prop :=
  p.1.incognito_id < 0 ∧ ∀ a ∈ p.2, p.1.incognito_id < a

/- ------------------------------------------------------------------ -/
/- C3: append and list messages                                       -/
/- ------------------------------------------------------------------ -/

/-- A `ChatService` with one incognito chat (id -1) of user 7. -/
def csDemo0 : CSState :=
  (cs_create_chat_session csInit 7 (some "t") true).2

/-- `csDemo0` after one appended message. -/
def csDemo1 : CSState :=
  (cs_add_message csDemo0 (-1) "user" "hi" []).2

/-- A `ChatService` whose durable store holds one session (id 1, user 7) with
one message (id 1). -/
def csDbDemo : CSState :=
  ⟨[], [], -1,
    ⟨[⟨1, 7, "T", false, false, 0, 0⟩], [⟨1, 1, "user", "q", [], 0⟩], 2, 2⟩, 5⟩

/-- The message list of `csDemo1`'s incognito chat -1. -/
def demoMsgs : List Msg :=
  [⟨-1, -1, "user", "hi", [], 1⟩]

/-- A `ChatManager` whose store holds session 5 of user 42 with one message,
plus an unrelated message of chat 9. -/
def cmDbDemo : CMState :=
  ⟨[], [],
    ⟨[⟨5, 42, "T", false, false, 0, 0⟩],
      [⟨1, 5, "user", "hi", [], 0⟩, ⟨2, 9, "user", "other", [], 0⟩], 6, 3⟩, 0⟩

/-- The durable session row of `cmDbDemo`. -/
def demoSession : DBSession :=
  ⟨5, 42, "T", false, false, 0, 0⟩

/- ------------------------------------------------------------------ -/
/- C9: verify_chat_owner leaks nothing                                -/
/- ------------------------------------------------------------------ -/

/-- The owner of a session id as the service would see it: the in-memory dict
for ephemeral ids, the session table for durable ids. -/
def cs_session_owner (s : CSState) (chat_id : Int) : Option Int :=
  if chat_id < 0 then
    (dictFind? chat_id s.incognito_chats).map (fun c => c.user_id)
  else (s.db.sessions.find? (fun t => t.id == chat_id)).map (fun t => t.user_id)

/-- A `ChatService` with an incognito chat -1 of user 3 and a durable
session 1 of user 42. -/
def csOwnDemo : CSState :=
  ⟨[(-1, ⟨-1, 3, "inc", 0, 0⟩)], [(-1, [])], -2,
    ⟨[⟨1, 42, "T", false, false, 0, 0⟩], [], 2, 1⟩, 0⟩

/- ------------------------------------------------------------------ -/
/- Theorems                                                           -/
/- ------------------------------------------------------------------ -/

/- ------------------------------------------------------------------ -/
/- Sorting permutation lemmas (shared helpers)                        -/
/- ------------------------------------------------------------------ -/

theorem mem_insertDescBy {α : Type} (key : α → ℚ) (x a : α) (l : List α) :
    a ∈ insertDescBy key x l ↔ a = x ∨ a ∈ l := by
  induction l with
  | nil => simp [insertDescBy]
  | cons y ys ih =>
      simp only [insertDescBy]
      by_cases h : key y ≤ key x
      · simp only [if_pos h, List.mem_cons]
      · simp only [if_neg h, List.mem_cons, ih]
        tauto

theorem mem_sortDescBy {α : Type} (key : α → ℚ) (a : α) (l : List α) :
    a ∈ sortDescBy key l ↔ a ∈ l := by
  induction l with
  | nil => simp [sortDescBy]
  | cons x xs ih =>
      simp only [sortDescBy, mem_insertDescBy, List.mem_cons, ih]

theorem any_sortDescBy {α : Type} (key : α → ℚ) (p : α → Bool) (l : List α) :
    (sortDescBy key l).any p = l.any p := by
  rcases h : l.any p with _ | _
  · rw [List.any_eq_false] at h ⊢
    intro x hx
    exact h x ((mem_sortDescBy key x l).mp hx)
  · rw [List.any_eq_true] at h ⊢
    obtain ⟨x, hx, hpx⟩ := h
    exact ⟨x, (mem_sortDescBy key x l).mpr hx, hpx⟩

/-- C4: context assembly produces a non-empty scarcity note exactly when there
are zero results or every result scores at most 0.7 (equivalently, the best
score does not exceed 0.7); in particular the note is non-empty for an empty
result list and empty whenever some (hence the top) score exceeds 0.7. -/
theorem C4_scarcity_note_iff (results : List RetrievedDoc) :
    (build_context_from_results results).2 ≠ "" ↔
      (results = [] ∨ ∀ r ∈ results, scoreOrZero r ≤ 7/10) := by
  cases results with
  | nil =>
      constructor
      · intro _; exact Or.inl rfl
      · intro _; decide
  | cons r0 rest =>
      have hval : (build_context_from_results (r0 :: rest)).2
          = (if (r0 :: rest).any (fun r => decide ((7 : ℚ)/10 < scoreOrZero r))
             then "" else lowRelevanceNote) := by
        simp only [build_context_from_results]
        rcases hs : r0.score.isSome with _ | _
        · simp [hs]
        · simp [hs, any_sortDescBy]
      rcases h : (r0 :: rest).any (fun r => decide ((7 : ℚ)/10 < scoreOrZero r)) with _ | _
      · rw [hval, h]
        simp only [Bool.false_eq_true, if_false]
        constructor
        · intro _
          refine Or.inr (fun r hr => ?_)
          have hfr := (List.any_eq_false.mp h) r hr
          simp only [decide_eq_true_eq] at hfr
          linarith [not_lt.mp hfr]
        · intro _; decide
      · rw [hval, h]
        simp only [if_true]
        obtain ⟨x, hx, hpx⟩ := List.any_eq_true.mp h
        simp only [decide_eq_true_eq] at hpx
        constructor
        · intro hne; exact absurd rfl hne
        · rintro (hnil | hall)
          · exact absurd hnil (List.cons_ne_nil _ _)
          · exact absurd (hall x hx) (by linarith)

/-- C6: each vector-search score is `1/(1+d)`; for distances `d ≥ 0` it lies in
the interval `(0, 1]` and it is strictly decreasing in the distance, so ranking
by ascending distance coincides with ranking by descending similarity. -/
theorem C6_similarity_score_spec (d₁ d₂ : ℚ) (h₁ : 0 ≤ d₁) (h₂ : 0 ≤ d₂) :
    (0 < similarity d₁ ∧ similarity d₁ ≤ 1) ∧
      (d₁ < d₂ ↔ similarity d₂ < similarity d₁) := by
  have p₁ : (0 : ℚ) < 1 + d₁ := by linarith
  have p₂ : (0 : ℚ) < 1 + d₂ := by linarith
  refine ⟨⟨one_div_pos.mpr p₁, ?_⟩, ?_, ?_⟩
  · rw [similarity, div_le_one p₁]; linarith
  · intro h
    exact one_div_lt_one_div_of_lt p₁ (by linarith)
  · intro h
    by_contra hc
    push_neg at hc
    have hle : similarity d₁ ≤ similarity d₂ :=
      one_div_le_one_div_of_le p₂ (by linarith)
    exact absurd h (not_lt.mpr hle)

/-- Witness for C6 at the concrete distances 0 and 1. -/
theorem C6_similarity_score_spec_witness :
    (0 : ℚ) ≤ 0 ∧ (0 : ℚ) ≤ 1 ∧
      ((0 < similarity 0 ∧ similarity 0 ≤ 1) ∧
        ((0 : ℚ) < 1 ↔ similarity 1 < similarity 0)) :=
  ⟨le_rfl, by norm_num, C6_similarity_score_spec 0 1 le_rfl (by norm_num)⟩

/- Shared helper lemmas for the engine. -/

theorem dictFind?_dictSet_self {α β : Type} [BEq α] [LawfulBEq α] (k : α) (v : β)
    (d : List (α × β)) :
    dictFind? k (dictSet k v d) = some v := by
  induction d with
  | nil => simp [dictSet, dictFind?]
  | cons p ps ih =>
      by_cases h : p.1 == k
      · simp [dictSet, dictFind?, h]
      · simp only [dictSet, h, if_false, Bool.false_eq_true]
        simp only [dictFind?, List.find?] at ih ⊢
        simp [h, ih]

theorem processBatches_length_aux (f : List String → List (List ℚ))
    (hf : ∀ b, (f b).length = b.length) :
    ∀ (n : Nat) (texts : List String), texts.length ≤ n →
      (processBatches f texts).length = texts.length := by
  intro n
  induction n with
  | zero =>
      intro texts h
      have : texts = [] := List.eq_nil_of_length_eq_zero (Nat.le_zero.mp h)
      subst this
      rw [processBatches]
      simp
  | succ n ih =>
      intro texts h
      rw [processBatches]
      by_cases he : texts.isEmpty
      · rw [dif_pos he]
        have : texts = [] := by
          cases texts with
          | nil => rfl
          | cons a as => simp [List.isEmpty] at he
        simp [this]
      · rw [dif_neg he]
        have hne : texts ≠ [] := by
          intro hgoal
          exact he (by simp [hgoal])
        have hpos : 0 < texts.length := List.length_pos.mpr hne
        have hdrop : (texts.drop 100).length ≤ n := by
          simp only [List.length_drop]
          omega
        rw [List.length_append, hf, ih (texts.drop 100) hdrop]
        simp only [List.length_take, List.length_drop]
        omega

/-- Total length preservation of the batching loop. -/
theorem processBatches_length (f : List String → List (List ℚ))
    (hf : ∀ b, (f b).length = b.length) (texts : List String) :
    (processBatches f texts).length = texts.length :=
  processBatches_length_aux f hf texts.length texts le_rfl

/-- Every batch result has exactly as many vectors as the batch has texts,
whether the batched call fails or succeeds. -/
theorem get_embeddings_batch_length (p : EmbedProvider) (texts : List String) :
    (get_embeddings_batch p texts).length = texts.length := by
  rw [get_embeddings_batch]
  by_cases h : p.batchFails texts
  · simp [h]
  · simp [h]

/-- C7: after a build the stored document list has exactly as many entries as
the index has vectors, for every embedding provider and every pattern of
batch failures: a failed batch contributes one zero vector per input text,
so the build never aborts and ordinal alignment is preserved. -/
theorem C7_build_document_vector_alignment (p : EmbedProvider) (s : VSState)
    (rows : List SourceRow) (sourceId : String) (textCols metaCols : List String) :
    dictFind? sourceId
        (build_index_from_dataframe p s rows sourceId textCols metaCols).indexes
      = some (buildIndexData p rows sourceId textCols metaCols) ∧
    (buildIndexData p rows sourceId textCols metaCols).docs.length
      = (buildIndexData p rows sourceId textCols metaCols).vecs.length := by
  constructor
  · simp [build_index_from_dataframe, dictFind?_dictSet_self]
  · simp [buildIndexData,
      processBatches_length (get_embeddings_batch p) (get_embeddings_batch_length p)]

/-- C10: when the source's index is not resident and loading from disk fails,
with the files absent or the deserialization raising, search returns the
empty list rather than raising. -/
theorem C10_search_empty_when_unavailable (p : EmbedProvider) (s : VSState)
    (query sourceId : String) (top_k : Nat)
    (hres : dictFind? sourceId s.indexes = none)
    (hdisk : s.disk sourceId = DiskEntry.absent ∨ s.disk sourceId = DiskEntry.corrupt) :
    (vs_search p s query sourceId top_k).1 = [] := by
  rcases hdisk with h | h <;> simp [vs_search, load_index, hres, h]

/-- Witness for C10 on a fresh engine queried about `company_faqs`. -/
theorem C10_search_empty_when_unavailable_witness :
    dictFind? "company_faqs" emptyEngineState.indexes = none ∧
    emptyEngineState.disk "company_faqs" = DiskEntry.absent ∧
    (vs_search probeProvider emptyEngineState "refund" "company_faqs" 5).1 = [] :=
  ⟨rfl, rfl,
    C10_search_empty_when_unavailable probeProvider emptyEngineState "refund"
      "company_faqs" 5 rfl (Or.inl rfl)⟩

/-- C5 counterexample: with only the Billing row and no vector results, the
query "refund policy" does NOT return that row scored 0.5 — the fallback
matches the entire query as one substring and no field contains it. -/
theorem C5_counterexample :
    search_faqs [] (some [billingRow]) "refund policy" 5 ≠
      [⟨faqRecord billingRow, some (1/2)⟩] := by
  decide

/-- C1 counterexample: `ChatManager.update_chat` on the ephemeral session -3,
called by its owner with a new title, is NOT rejected: it returns success and
the stored title changes from "Incognito Chat" to "Renamed". -/
theorem C1_counterexample :
    (cm_update_chat cmDemo (-3) 7 (some "Renamed") none).1 = true ∧
    ((dictFind? (-3) (cm_update_chat cmDemo (-3) 7 (some "Renamed") none).2.incognito_chats).map
        (fun c => c.title)) = some "Renamed" ∧
    ((dictFind? (-3) cmDemo.incognito_chats).map (fun c => c.title)) =
      some "Incognito Chat" := by
  decide

/-- C1 (amended): `ChatService.update_chat` rejects every ephemeral id,
returning no session and leaving the state untouched; `ChatManager.update_chat`
on an ephemeral id succeeds exactly when the chat exists, belongs to the
caller and a title is supplied, and on every failure leaves the state
untouched (so the title is unchanged). -/
theorem C1_ephemeral_update (scs : CSState) (scm : CMState) (cid uid : Int)
    (title : Option String) (is_archived is_pinned is_incog : Option Bool)
    (hneg : cid < 0) :
    cs_update_chat scs cid title is_archived is_pinned is_incog = (none, scs) ∧
    ((cm_update_chat scm cid uid title is_archived).1 = true ↔
      (∃ ch t, dictFind? cid scm.incognito_chats = some ch ∧ ch.user_id = uid ∧
        title = some t)) ∧
    ((cm_update_chat scm cid uid title is_archived).1 = false →
      (cm_update_chat scm cid uid title is_archived).2 = scm) := by
  refine ⟨?_, ?_, ?_⟩
  · simp [cs_update_chat, hneg]
  · unfold cm_update_chat
    rw [if_pos hneg]
    split
    · rename_i chat tt hfind
      by_cases he : chat.user_id == uid
      · rw [if_pos he]
        constructor
        · intro _
          exact ⟨chat, tt, hfind, by simpa using he, rfl⟩
        · intro _; rfl
      · rw [if_neg he]
        constructor
        · intro hfalse; exact absurd hfalse (by simp)
        · rintro ⟨ch', t', hch', huser, -⟩
          rw [hfind] at hch'
          cases hch'
          exact absurd (by simpa using huser) (by simpa using he)
    · simp
    · rename_i hfind
      simp [hfind]
  · intro hres
    unfold cm_update_chat at hres ⊢
    rw [if_pos hneg] at hres ⊢
    split at hres
    · rename_i chat tt hfind
      by_cases he : chat.user_id == uid
      · rw [if_pos he] at hres
        exact absurd hres (by simp)
      · rw [if_neg he]
    · rfl
    · rfl

/-- Witness for C1 on `ChatService` over `cmDemo`, ephemeral id -3. -/
theorem C1_ephemeral_update_witness :
    ((-3 : Int) < 0) ∧
    (cs_update_chat csInit (-3) (some "Renamed") none none none = (none, csInit) ∧
      ((cm_update_chat cmDemo (-3) 7 (some "Renamed") none).1 = true ↔
        (∃ ch t, dictFind? (-3) cmDemo.incognito_chats = some ch ∧ ch.user_id = 7 ∧
          (some "Renamed" : Option String) = some t)) ∧
      ((cm_update_chat cmDemo (-3) 7 (some "Renamed") none).1 = false →
        (cm_update_chat cmDemo (-3) 7 (some "Renamed") none).2 = cmDemo)) :=
  ⟨by decide,
    C1_ephemeral_update csInit cmDemo (-3) 7 (some "Renamed") none none none
      (by decide)⟩

theorem cs_delete_chat_counter (s : CSState) (cid : Int) :
    (cs_delete_chat s cid).2.incognito_id = s.incognito_id := by
  rw [cs_delete_chat]
  by_cases h : cid < 0 <;> simp [h, db_delete_chat_session]

theorem cs_clear_counter (s : CSState) (uid : Int) :
    (cs_clear_incognito_chats s uid).2.incognito_id = s.incognito_id := by
  rw [cs_clear_incognito_chats]

theorem csRunStep_inv (acc : CSState × List Int) (op : EphOp)
    (h : csAllocInv acc) : csAllocInv (csRunStep acc op) := by
  obtain ⟨hneg, hall⟩ := h
  cases op with
  | create uid =>
      refine ⟨?_, ?_⟩
      · show (csStep acc.1 (EphOp.create uid)).1.incognito_id < 0
        simp only [csStep, cs_create_chat_session, cs_new_incognito_id, if_true,
          ite_true]
        omega
      · intro a ha
        simp only [csRunStep, csStep, cs_create_chat_session,
          cs_new_incognito_id, if_true, ite_true] at ha ⊢
        rcases List.mem_append.mp ha with hold | hnew
        · have := hall a hold
          omega
        · simp at hnew
          omega
  | delete cid uid =>
      refine ⟨?_, ?_⟩
      · show (csStep acc.1 (EphOp.delete cid uid)).1.incognito_id < 0
        simp only [csStep, cs_delete_chat_counter]
        exact hneg
      · intro a ha
        simp only [csRunStep, csStep] at ha ⊢
        rw [cs_delete_chat_counter]
        rcases List.mem_append.mp ha with hold | hnew
        · exact hall a hold
        · cases hnew
  | clear uid =>
      refine ⟨?_, ?_⟩
      · show (csStep acc.1 (EphOp.clear uid)).1.incognito_id < 0
        simp only [csStep, cs_clear_counter]
        exact hneg
      · intro a ha
        simp only [csRunStep, csStep] at ha ⊢
        rw [cs_clear_counter]
        rcases List.mem_append.mp ha with hold | hnew
        · exact hall a hold
        · cases hnew

theorem csRun_inv (ops : List EphOp) : csAllocInv (csRun ops) := by
  rw [csRun]
  have hgen : ∀ (l : List EphOp) (p : CSState × List Int), csAllocInv p →
      csAllocInv (l.foldl csRunStep p) := by
    intro l
    induction l with
    | nil => intro p hp; exact hp
    | cons op ops ih =>
        intro p hp
        exact ih (csRunStep p op) (csRunStep_inv p op hp)
  refine hgen ops (csInit, []) ⟨by decide, ?_⟩
  intro a ha
  cases ha

/-- C2 counterexample: in `ChatManager` the ephemeral id is computed from the
live dict size, so after create (id -1), delete, the next create hands out -1
again — a previously allocated id is reused. -/
theorem C2_counterexample :
    (cm_create_chat cmInit 7 none none true).1 = -1 ∧
    (cm_delete_chat (cm_create_chat cmInit 7 none none true).2 (-1) 7).1 = true ∧
    (cm_create_chat
        (cm_delete_chat (cm_create_chat cmInit 7 none none true).2 (-1) 7).2
        7 none none true).1 = -1 := by
  decide

/-- C2 (amended): in `ChatService`, ephemeral ids come from the in-process
counter starting at -1: the first allocation is -1, and after any sequence of
create/delete/clear operations a newly created ephemeral session's id is
strictly negative and strictly below every previously allocated ephemeral id,
hence never reused. (`ChatManager.create_chat`, by contrast, derives the id
from the live dict size and reuses ids, as the counterexample shows.) -/
theorem C2_ephemeral_ids_fresh (ops : List EphOp) (uid : Int) :
    (∃ s0, (cs_create_chat_session csInit uid none true).1 = some s0 ∧
      s0.id = -1) ∧
    (∃ sess, (cs_create_chat_session (csRun ops).1 uid none true).1 = some sess ∧
      sess.id < 0 ∧ ∀ a ∈ (csRun ops).2, sess.id < a) := by
  constructor
  · exact ⟨_, rfl, rfl⟩
  · obtain ⟨hneg, hall⟩ := csRun_inv ops
    exact ⟨_, rfl, hneg, hall⟩

/-- C3 counterexample: in the ephemeral session -1 the first two appended
messages get ids -1 and -2; listing returns them in append order with the
appended message last, but the ids strictly DECREASE, so they are not
strictly increasing in append order. -/
theorem C3_counterexample :
    ((cs_add_message csDemo0 (-1) "user" "hi" []).1).map (fun m => m.id) =
      some (-1) ∧
    ((cs_add_message csDemo1 (-1) "assistant" "hello" []).1).map (fun m => m.id) =
      some (-2) ∧
    (cs_get_chat_messages (cs_add_message csDemo1 (-1) "assistant" "hello" []).2
        (-1) none 0).map (fun m => m.id) = [-1, -2] ∧
    ¬ ((-1 : Int) < -2) := by
  decide

/-- C3 (amended): `addMessage` followed by listing returns the appended
message last; within a session, message ids strictly DECREASE in append order
for an ephemeral session (session-local counter -1, -2, ...) and strictly
increase for a durable session, whose listing is capped at 100 messages by
default. -/
theorem C3_append_then_list (s : CSState) (cid : Int) (role content : String)
    (md : List (String × String)) :
    (∀ msgs, cid < 0 → dictFind? cid s.incognito_messages = some msgs →
      (∀ m ∈ msgs, -(msgs.length : Int) ≤ m.id) →
      ∃ m, (cs_add_message s cid role content md).1 = some m ∧
        cs_get_chat_messages (cs_add_message s cid role content md).2 cid none 0
          = msgs ++ [m] ∧
        ∀ mp ∈ msgs, m.id < mp.id) ∧
    (0 < cid → (∀ m ∈ s.db.messages, m.id < s.db.nextMessageId) →
      (s.db.messages.filter (fun m => m.chat_id == cid)).length < 100 →
      ∃ m, (cs_add_message s cid role content md).1 = some m ∧
        cs_get_chat_messages (cs_add_message s cid role content md).2 cid none 0
          = s.db.messages.filter (fun m => m.chat_id == cid) ++ [m] ∧
        ∀ mp ∈ s.db.messages.filter (fun m => m.chat_id == cid), mp.id < m.id) := by
  constructor
  · intro msgs hneg hfind hids
    refine ⟨⟨-(msgs.length : Int) - 1, cid, role, content, md, s.clock⟩, ?_, ?_, ?_⟩
    · simp only [cs_add_message, if_pos hneg, hfind]
    · simp only [cs_add_message, cs_get_chat_messages, if_pos hneg, hfind]
      simp [dictFind?_dictSet_self]
    · intro mp hmp
      have h1 := hids mp hmp
      dsimp only
      omega
  · intro hpos hnext hcount
    have hnneg : ¬ (cid < 0) := by omega
    refine ⟨⟨s.db.nextMessageId, cid, role, content, md, s.clock⟩, ?_, ?_, ?_⟩
    · simp only [cs_add_message, if_neg hnneg, db_add_message_to_chat]
    · simp only [cs_add_message, cs_get_chat_messages, if_neg hnneg,
        db_add_message_to_chat, db_get_chat_messages, pyOrLimit]
      rw [List.filter_append]
      simp only [List.filter_cons, List.filter_nil]
      rw [if_pos (by simp)]
      rw [List.drop_zero]
      apply List.take_of_length_le
      simp only [List.length_append, List.length_singleton]
      omega
    · intro mp hmp
      exact hnext mp (List.mem_of_mem_filter hmp)

/-- Witness for C3: both branches applied at concrete states — the ephemeral
chat -1 of `csDemo1` and the durable chat 1 of `csDbDemo`. -/
theorem C3_append_then_list_witness :
    (∃ m, (cs_add_message csDemo1 (-1) "user" "again" []).1 = some m ∧
      cs_get_chat_messages (cs_add_message csDemo1 (-1) "user" "again" []).2
          (-1) none 0 = demoMsgs ++ [m] ∧
      ∀ mp ∈ demoMsgs, m.id < mp.id) ∧
    (∃ m, (cs_add_message csDbDemo 1 "user" "again" []).1 = some m ∧
      cs_get_chat_messages (cs_add_message csDbDemo 1 "user" "again" []).2
          1 none 0
        = csDbDemo.db.messages.filter (fun m => m.chat_id == 1) ++ [m] ∧
      ∀ mp ∈ csDbDemo.db.messages.filter (fun m => m.chat_id == 1), mp.id < m.id) :=
  ⟨(C3_append_then_list csDemo1 (-1) "user" "again" []).1 demoMsgs (by decide)
      (by decide) (by decide),
    (C3_append_then_list csDbDemo 1 "user" "again" []).2 (by decide) (by decide)
      (by decide)⟩

/- ------------------------------------------------------------------ -/
/- C8: ChatManager.delete_chat on a foreign durable session           -/
/- ------------------------------------------------------------------ -/

/-- C8: deleting a durable session that belongs to someone else returns
failure, yet every message of that session has already been deleted (the
message deletion runs unconditionally before the ownership-checked session
deletion), while the session row itself and all unrelated messages remain. -/
theorem C8_delete_wrong_owner (s : CMState) (cid uid : Int) (hpos : 0 < cid)
    (sess : DBSession) (hmem : sess ∈ s.db.sessions) (hid : sess.id = cid)
    (howner : sess.user_id ≠ uid)
    (huniq : ∀ t ∈ s.db.sessions, t.id = cid → t = sess) :
    (cm_delete_chat s cid uid).1 = false ∧
    sess ∈ (cm_delete_chat s cid uid).2.db.sessions ∧
    (∀ m ∈ (cm_delete_chat s cid uid).2.db.messages, m.chat_id ≠ cid) ∧
    (∀ m ∈ s.db.messages, m.chat_id ≠ cid →
      m ∈ (cm_delete_chat s cid uid).2.db.messages) := by
  have hnneg : ¬ (cid < 0) := by omega
  have hkeep : ∀ t ∈ s.db.sessions, ¬ (t.id == cid && t.user_id == uid) = true := by
    intro t ht hcontra
    simp only [Bool.and_eq_true, beq_iff_eq] at hcontra
    have := huniq t ht hcontra.1
    subst this
    exact howner hcontra.2
  refine ⟨?_, ?_, ?_, ?_⟩
  · simp only [cm_delete_chat, if_neg hnneg]
    have hnil : s.db.sessions.filter (fun t => t.id == cid && t.user_id == uid)
        = [] := List.filter_eq_nil.mpr hkeep
    simp [hnil]
  · simp only [cm_delete_chat, if_neg hnneg]
    refine List.mem_filter.mpr ⟨hmem, ?_⟩
    simp only [Bool.not_eq_true', Bool.and_eq_false_iff]
    right
    simpa using howner
  · intro m hm
    simp only [cm_delete_chat, if_neg hnneg] at hm
    have := (List.mem_filter.mp hm).2
    simpa using this
  · intro m hm hne
    simp only [cm_delete_chat, if_neg hnneg]
    exact List.mem_filter.mpr ⟨hm, by simpa using hne⟩

/-- Witness for C8: user 7 deletes session 5 of user 42. -/
theorem C8_delete_wrong_owner_witness :
    (0 : Int) < 5 ∧ demoSession ∈ cmDbDemo.db.sessions ∧ demoSession.user_id ≠ 7 ∧
    ((cm_delete_chat cmDbDemo 5 7).1 = false ∧
      demoSession ∈ (cm_delete_chat cmDbDemo 5 7).2.db.sessions ∧
      (∀ m ∈ (cm_delete_chat cmDbDemo 5 7).2.db.messages, m.chat_id ≠ 5) ∧
      (∀ m ∈ cmDbDemo.db.messages, m.chat_id ≠ 5 →
        m ∈ (cm_delete_chat cmDbDemo 5 7).2.db.messages)) :=
  ⟨by decide, by decide, by decide,
    C8_delete_wrong_owner cmDbDemo 5 7 (by decide) demoSession (by decide) rfl
      (by decide) (by decide)⟩

/-- C9: `verify_chat_owner` returns a bare boolean and cannot distinguish a
session that does not exist from a session owned by someone else: both cases
yield `false`, for every session id and requesting owner (session ids being
unique in the durable store). -/
theorem C9_verify_owner_no_leak (s : CSState) (cid uid : Int)
    (huniq : ∀ t1 ∈ s.db.sessions, ∀ t2 ∈ s.db.sessions, t1.id = t2.id → t1 = t2)
    (h : cs_session_owner s cid = none ∨
      ∃ o, cs_session_owner s cid = some o ∧ o ≠ uid) :
    cs_verify_chat_owner s cid uid = false := by
  by_cases hneg : cid < 0
  · simp only [cs_verify_chat_owner, if_pos hneg]
    simp only [cs_session_owner, if_pos hneg] at h
    rcases hch : dictFind? cid s.incognito_chats with _ | ch
    · rfl
    · rw [hch] at h
      rcases h with hnone | ⟨o, ho, hne⟩
      · simp at hnone
      · simp only [Option.map_some'] at ho
        cases ho
        simpa using hne
  · simp only [cs_verify_chat_owner, if_neg hneg, db_chat_belongs_to_user]
    simp only [cs_session_owner, if_neg hneg] at h
    apply List.any_eq_false.mpr
    intro t ht hcontra
    simp only [Bool.and_eq_true, beq_iff_eq] at hcontra
    rcases h with hnone | ⟨o, ho, hne⟩
    · rcases hf : s.db.sessions.find? (fun u => u.id == cid) with _ | t0
      · have := List.find?_eq_none.mp hf t ht
        exact this (by simpa using hcontra.1)
      · rw [hf] at hnone
        simp at hnone
    · rcases hf : s.db.sessions.find? (fun u => u.id == cid) with _ | t0
      · rw [hf] at ho
        simp at ho
      · rw [hf] at ho
        simp only [Option.map_some'] at ho
        cases ho
        have ht0mem : t0 ∈ s.db.sessions := List.mem_of_find?_eq_some hf
        have ht0id : t0.id = cid := by
          have := List.find?_some hf
          simpa using this
        have : t = t0 := huniq t ht t0 ht0mem (by rw [hcontra.1, ht0id])
        subst this
        exact hne hcontra.2

/-- Witness for C9: user 7 probes the durable session 1 owned by user 42 and
the missing session 2; both probes return `false`. -/
theorem C9_verify_owner_no_leak_witness :
    cs_session_owner csOwnDemo 1 = some 42 ∧
    cs_session_owner csOwnDemo 2 = none ∧
    cs_verify_chat_owner csOwnDemo 1 7 = false ∧
    cs_verify_chat_owner csOwnDemo 2 7 = false :=
  ⟨by decide, by decide,
    C9_verify_owner_no_leak csOwnDemo 1 7 (by decide)
      (Or.inr ⟨42, by decide, by decide⟩),
    C9_verify_owner_no_leak csOwnDemo 2 7 (by decide) (Or.inl (by decide))⟩

/-- C5 (amended): with only the Billing row and no vector results, the query
"refund policy" yields the empty list, because the whole query is matched as
one case-insensitive substring; a query that does occur inside a field, such
as "refund", returns exactly that row with score 0.5. -/
theorem C5_fallback_text_search_behaviour :
    search_faqs [] (some [billingRow]) "refund policy" 5 = [] ∧
    search_faqs [] (some [billingRow]) "refund" 5 =
      [⟨faqRecord billingRow, some (1/2)⟩] :=
  ⟨by decide, rfl⟩

end SmartKA
